import Mathlib

/-!
Verification of the blogsync note/article pipeline.

This file gives a shallow embedding, in Lean 4, of the core logic of the
blogsync repository: the note grouping engine, the filter/sort/search
engine, the note-entry session (article resolution and note creation),
the export formatters (Markdown, JSON, CSV) and the recommendation
scorer.  Each definition is translated from the TypeScript source
(`src/components/BlogNotes.tsx`, `src/components/ExportNotes.tsx`,
`src/components/ArticleRecommendations.tsx`); theorems then settle the
specification claims against these definitions.

Modelling conventions:
* JavaScript strings are Lean `String`s; character-level operations
  (`toLowerCase`, `includes`, `replace`, lexicographic comparison) are
  defined structurally on `String.data` so that they evaluate by kernel
  reduction.
* JavaScript truthiness on nullable strings (`x || y`) is `orElseStr`:
  both `null` and the empty string select the fallback.
* The floating-point value `NaN` (which arises from `0 / 0` in the
  recommendation scorer) is modelled as `none : Option ℚ`; every
  numeric comparison against `none` is false, exactly as every
  comparison against `NaN` is false in JavaScript.
* Asynchronous store calls are modelled as pure state transitions on an
  explicit `Store`; a Boolean flag per insert says whether the store
  rejects that call (a `PersistenceError`), in which case the failed
  call writes nothing.
-/

/-- Lowercasing of a JavaScript string, modelled on code points
(`String.prototype.toLowerCase`). -/
def lowerChars (l : List Char) : List Char := l.map Char.toLower

/-- Code-point lexicographic comparison, `lexLe a b = true` iff `a ≤ b`.
This models `a.localeCompare(b) ≤ 0` as used by the article sort. -/
def lexLe : List Char → List Char → Bool
  | [], _ => true
  | _ :: _, [] => false
  | a :: as, b :: bs => if a < b then true else if b < a then false else lexLe as bs

/-- Leading-segment test: `startsWithChars needle hay` is true iff
`needle` is an initial segment of `hay`. -/
def startsWithChars : List Char → List Char → Bool
  | [], _ => true
  | _ :: _, [] => false
  | a :: as, b :: bs => a == b && startsWithChars as bs

/-- Substring test, `hasSub needle hay` models `hay.includes(needle)`. -/
def hasSub (needle : List Char) : List Char → Bool
  | [] => needle.isEmpty
  | c :: t => startsWithChars needle (c :: t) || hasSub needle t

/-- `Array.prototype.join(sep)`. -/
def joinWith (sep : String) : List String → String
  | [] => ""
  | [x] => x
  | x :: y :: t => x ++ sep ++ joinWith sep (y :: t)

/-- JavaScript `x || y` on a nullable string: `null` and `""` are falsy. -/
def orElseStr (x : Option String) (y : String) : String :=
  match x with
  | some s => if s = "" then y else s
  | none => y

/-- JavaScript truthiness of a nullable string. -/
def truthy (x : Option String) : Bool :=
  match x with
  | some s => decide (s ≠ "")
  | none => false

/-- The `Note` row shape, from the `Note` interface shared by
`BlogNotes.tsx` and `ExportNotes.tsx`.  (The `user_id` column exists in
the database but is absent from the fetched interface; per-user scoping
is enforced by the persistence service, outside the modelled record.) -/
structure Note where
  id : String
  blog_id : String
  article_id : Option String
  article_title : Option String
  article_url : Option String
  excerpt : String
  personal_note : String
  created_at : String
deriving DecidableEq, Repr

/-- The `Blog` shape used by the export component (`id`, `name`). -/
structure Blog where
  id : String
  name : String
deriving DecidableEq, Repr

namespace BlogNotes

/-- One value of the `GroupedNotes` record in `BlogNotes.tsx`: group
metadata (taken from the first note of the group) plus the group's
notes. -/
structure NoteGroup where
  article_title : Option String
  article_url : Option String
  notes : List Note
deriving DecidableEq, Repr

/-- The group key of a note: `note.article_id || 'uncategorized'`. -/
def keyOf (n : Note) : String := orElseStr n.article_id "uncategorized"

/-- One step of the `reduce` in `groupNotesByArticle`: push the note
onto its group, creating the group (at the end, in insertion order) on
first encounter.  A JavaScript object with string keys is modelled as
an association list with pairwise-distinct keys in insertion order. -/
def insertNote (n : Note) : List (String × NoteGroup) → List (String × NoteGroup)
  | [] => [(keyOf n, ⟨n.article_title, n.article_url, [n]⟩)]
  | g :: gs =>
    if g.1 = keyOf n then
      (g.1, ⟨g.2.article_title, g.2.article_url, g.2.notes ++ [n]⟩) :: gs
    else
      g :: insertNote n gs

/-- `groupNotesByArticle` from `BlogNotes.tsx`. -/
def groupNotesByArticle (notes : List Note) : List (String × NoteGroup) :=
  notes.foldl (fun acc n => insertNote n acc) []

/-- A note whose article reference is present but equal to the empty
string: JavaScript truthiness sends it to the `"uncategorized"` bucket. -/
def emptyIdNote : Note :=
  ⟨"n1", "b1", some "", none, none, "excerpt", "thoughts", "2024-01-01"⟩

end BlogNotes

/-- Doubling of internal double quotes: `cell.replace(/"/g, '""')`. -/
def doubleQuotes : List Char → List Char
  | [] => []
  | c :: cs => if c = '"' then '"' :: '"' :: doubleQuotes cs else c :: doubleQuotes cs

/-- CSV field quoting from both export paths:
`"${cell.replace(/"/g, '""')}"`. -/
def csvEscape (s : String) : String := ⟨'"' :: (doubleQuotes s.data ++ ['"'])⟩

/-- Collapse each doubled double quote back to a single one (the inverse
direction of RFC-4180 quoting). -/
def collapseQuotes : List Char → List Char
  | [] => []
  | [c] => [c]
  | c1 :: c2 :: cs =>
    if c1 = '"' ∧ c2 = '"' then '"' :: collapseQuotes cs
    else c1 :: collapseQuotes (c2 :: cs)

/-- Parse one emitted CSV field: strip the outer quotes, collapse each
doubled quote. -/
def csvUnescape (s : String) : String := ⟨collapseQuotes (s.data.drop 1).dropLast⟩

namespace BlogNotes

/-- The `SortOption` union type of `BlogNotes.tsx`. -/
inductive SortOption
  | newest
  | oldest
  | article
deriving DecidableEq

/-- The `FilterOption` union type of `BlogNotes.tsx`. -/
inductive FilterOption
  | all
  | withArticle
  | withoutArticle
deriving DecidableEq

/-- The article-sort key: `note.article_title || ''`. -/
def titleKey (n : Note) : String := orElseStr n.article_title ""

/-- The filter stage of `filterAndSortNotes`. -/
def applyFilter (fb : FilterOption) (notes : List Note) : List Note :=
  match fb with
  | .all => notes
  | .withArticle => notes.filter (fun n => truthy n.article_title)
  | .withoutArticle => notes.filter (fun n => !truthy n.article_title)

/-- The search predicate of `filterAndSortNotes`: case-insensitive
substring match on excerpt, personal note, or (truthy) article title. -/
def matchesQuery (q : String) (n : Note) : Bool :=
  hasSub (lowerChars q.data) (lowerChars n.excerpt.data)
  || hasSub (lowerChars q.data) (lowerChars n.personal_note.data)
  || (match n.article_title with
      | some t => decide (t ≠ "") && hasSub (lowerChars q.data) (lowerChars t.data)
      | none => false)

/-- The search stage of `filterAndSortNotes` (skipped when the query is
empty, as `if (searchQuery)` is falsy on `""`). -/
def applySearch (q : String) (notes : List Note) : List Note :=
  if q = "" then notes else notes.filter (matchesQuery q)

/-- Stable insertion of an element into an already-sorted list: the new
element goes before the first element it compares `le` to. -/
def insertLe (le : Note → Note → Bool) (n : Note) : List Note → List Note
  | [] => [n]
  | m :: l => if le n m then n :: m :: l else m :: insertLe le n l

/-- A stable sort by the Boolean comparator `le`, modelling
`Array.prototype.sort` (stable per the ECMAScript specification) with a
comparator `cmp` such that `le a b ↔ cmp(a, b) ≤ 0`. -/
def stableSort (le : Note → Note → Bool) (l : List Note) : List Note :=
  l.foldr (insertLe le) []

/-- The `article` comparator: `(a.article_title || '').localeCompare(b.article_title || '')`,
with `localeCompare` modelled as code-point order. -/
def leByTitle (a b : Note) : Bool := lexLe (titleKey a).data (titleKey b).data

/-- The `newest` comparator `new Date(b).getTime() - new Date(a).getTime()`;
`getTime` abstracts date parsing. -/
def leNewest (getTime : String → Int) (a b : Note) : Bool :=
  decide (getTime b.created_at ≤ getTime a.created_at)

/-- The `oldest` comparator. -/
def leOldest (getTime : String → Int) (a b : Note) : Bool :=
  decide (getTime a.created_at ≤ getTime b.created_at)

/-- `filterAndSortNotes` from `BlogNotes.tsx`: filter, then search,
then sort.  The UI state `filterBy`/`searchQuery`/`sortBy` is passed
explicitly; `getTime` abstracts `new Date(...).getTime()`. -/
def filterAndSortNotes (getTime : String → Int) (fb : FilterOption) (q : String)
    (sb : SortOption) (notes : List Note) : List Note :=
  match sb with
  | .newest => stableSort (leNewest getTime) (applySearch q (applyFilter fb notes))
  | .oldest => stableSort (leOldest getTime) (applySearch q (applyFilter fb notes))
  | .article => stableSort leByTitle (applySearch q (applyFilter fb notes))

/-- The scenario note titled `"Zed"`. -/
def noteZed : Note := ⟨"n1", "b1", none, some "Zed", none, "e1", "p1", "t1"⟩

/-- The scenario note with the empty title. -/
def noteEmptyTitle : Note := ⟨"n2", "b1", none, some "", none, "e2", "p2", "t2"⟩

/-- The scenario note titled `"Apple"`. -/
def noteApple : Note := ⟨"n3", "b1", none, some "Apple", none, "e3", "p3", "t3"⟩

/-- One row of the `articles` collection as written by the note-entry
path: `insert({ blog_id, user_id, title, url })`. -/
structure ArticleRow where
  id : String
  blog_id : String
  user_id : String
  title : String
  url : String
deriving DecidableEq, Repr

/-- The persistence service's state visible to the note-entry session:
the `articles` and `notes` collections, plus a counter from which the
store mints fresh row ids (and the opaque `created_at` values it
assigns). -/
structure Store where
  articles : List ArticleRow
  notes : List Note
  nextId : Nat
deriving DecidableEq, Repr

/-- The note-entry form state of `BlogNotes` (second revision, the one
with the session-scoped article cache `currentArticleId`): the four text
fields plus the cached article reference. -/
structure Session where
  excerpt : String
  personalNote : String
  articleTitle : String
  articleUrl : String
  currentArticleId : Option String
deriving DecidableEq, Repr

/-- The outcome of one `handleSubmit` call: the store afterwards, the
component state afterwards, and the surfaced error message if the
operation threw. -/
structure SubmitResult where
  store : Store
  session : Session
  error : Option String
deriving DecidableEq, Repr

/-- Editing the article title resets the cached article reference
(`handleArticleInfoChange`). -/
def setArticleTitle (s : Session) (t : String) : Session :=
  ⟨s.excerpt, s.personalNote, t, s.articleUrl, none⟩

/-- Editing the article URL resets the cached article reference
(`handleArticleInfoChange`). -/
def setArticleUrl (s : Session) (u : String) : Session :=
  ⟨s.excerpt, s.personalNote, s.articleTitle, u, none⟩

/-- The note-insert half of `handleSubmit`: build `newNoteData` (with
the denormalized `article_title`/`article_url` snapshot,
`articleTitle || null` and `articleUrl || null`) and insert it.  If the
store rejects the insert (`noteFail`), the call throws and writes
nothing; on success the created note is appended and only the excerpt
and personal note fields are cleared. -/
def insertNoteRow (uid bid : String) (st : Store) (s : Session) (noteFail : Bool) :
    SubmitResult :=
  if noteFail then ⟨st, s, some "Failed to create note"⟩
  else
    ⟨⟨st.articles,
      st.notes ++
        [⟨toString st.nextId, bid, s.currentArticleId,
          if s.articleTitle = "" then none else some s.articleTitle,
          if s.articleUrl = "" then none else some s.articleUrl,
          s.excerpt, s.personalNote, toString st.nextId⟩],
      st.nextId + 1⟩,
    ⟨"", "", s.articleTitle, s.articleUrl, s.currentArticleId⟩, none⟩

/-- `handleSubmit` from `BlogNotes.tsx` (second revision): resolve the
article — create one only when no cached reference exists and both
title and URL are truthy, caching its id — then create the dependent
note.  `articleFail`/`noteFail` say whether the store rejects the
respective insert; a rejected insert writes nothing and the thrown
error aborts the rest of the operation. -/
def handleSubmit (uid bid : String) (st : Store) (s : Session)
    (articleFail noteFail : Bool) : SubmitResult :=
  if s.currentArticleId = none ∧ s.articleUrl ≠ "" ∧ s.articleTitle ≠ "" then
    if articleFail then ⟨st, s, some "Failed to create article"⟩
    else
      insertNoteRow uid bid
        ⟨st.articles ++ [⟨toString st.nextId, bid, uid, s.articleTitle, s.articleUrl⟩],
          st.notes, st.nextId + 1⟩
        ⟨s.excerpt, s.personalNote, s.articleTitle, s.articleUrl, some (toString st.nextId)⟩
        noteFail
  else
    insertNoteRow uid bid st s noteFail

/-- Iterated successful submissions within one session. -/
def submitN (uid bid : String) : Nat → Store × Session → Store × Session
  | 0, p => p
  | k + 1, p =>
    submitN uid bid k
      ((handleSubmit uid bid p.1 p.2 false false).store,
       (handleSubmit uid bid p.1 p.2 false false).session)

end BlogNotes

namespace ArticleRecommendations

/-- The expertise levels of `UserProfile.expertise_areas`. -/
inductive ExpertiseLevel
  | beginner
  | intermediate
  | advanced
  | expert
deriving DecidableEq, Repr

/-- The `levels` lookup table inside `getExpertiseScore`. -/
def levels : ExpertiseLevel → ℚ
  | .beginner => 1
  | .intermediate => 2
  | .advanced => 3
  | .expert => 4

/-- The `UserProfile` interface (the parts the ranker reads):
`interests` and the `expertise_areas` map, modelled as an association
list. -/
structure UserProfile where
  interests : List String
  expertise_areas : List (String × ExpertiseLevel)
deriving DecidableEq, Repr

/-- An article row as read by the ranker, with the joined blog name
(`articles.select('*, blogs!inner(name)')`). -/
structure Article where
  id : String
  title : String
  url : String
  blog_id : String
  blogName : String
  is_read : Bool
deriving DecidableEq, Repr

/-- `getExpertiseScore` from `ArticleRecommendations.tsx`:
`Object.values(expertise).map(level => levels[level])` summed with
`reduce((sum, score) => sum + score, 0)` and divided by
`scores.length`.  On an empty expertise map the source computes `0 / 0`,
which is the IEEE-754 `NaN`; that value is modelled as `none`. -/
def getExpertiseScore (expertise : List (String × ExpertiseLevel)) : Option ℚ :=
  let scores := expertise.map (fun p => levels p.2)
  if scores.length = 0 then none
  else some (scores.foldl (· + ·) 0 / (scores.length : ℚ))

/-- A JavaScript `x <= c` comparison where `x` may be `NaN` (`none`):
every comparison against `NaN` is false. -/
def nanLe (x : Option ℚ) (c : ℚ) : Bool :=
  match x with
  | some v => decide (v ≤ c)
  | none => false

/-- A JavaScript `x >= c` comparison where `x` may be `NaN`. -/
def nanGe (x : Option ℚ) (c : ℚ) : Bool :=
  match x with
  | some v => decide (c ≤ v)
  | none => false

/-- The per-article score of the ranker in
`fetchUserProfileAndRecommendations`: `+2` for each interest whose text
occurs (case-insensitively) in the title or the owning blog's name,
then `+1` for `"advanced"` in the title with aggregate expertise `≥ 3`,
and `+1` for `"beginner"` in the title with aggregate expertise `≤ 2`. -/
def scoreArticle (p : UserProfile) (a : Article) : Nat :=
  2 * (p.interests.filter (fun i =>
        hasSub (lowerChars i.data) (lowerChars a.title.data)
        || hasSub (lowerChars i.data) (lowerChars a.blogName.data))).length
  + (if hasSub "advanced".data (lowerChars a.title.data)
        && nanGe (getExpertiseScore p.expertise_areas) 3 then 1 else 0)
  + (if hasSub "beginner".data (lowerChars a.title.data)
        && nanLe (getExpertiseScore p.expertise_areas) 2 then 1 else 0)

/-- A profile with an empty expertise map and no interests. -/
def emptyProfile : UserProfile := ⟨[], []⟩

/-- An unread article whose title contains `"beginner"`. -/
def beginnerArticle : Article :=
  ⟨"a1", "A beginner guide", "https://example.com/x", "b1", "Some Blog", false⟩

end ArticleRecommendations

namespace ExportNotes

/-- `Map.get` on `new Map(blogs.map(blog => [blog.id, blog.name]))`:
the last entry for a key wins. -/
def blogMapGet (blogs : List Blog) (bid : String) : Option String :=
  ((blogs.filter (fun b => decide (b.id = bid))).getLast?).map Blog.name

/-- `blogMap.get(note.blog_id) || 'Unknown Blog'`. -/
def blogNameOf (blogs : List Blog) (bid : String) : String :=
  orElseStr (blogMapGet blogs bid) "Unknown Blog"

/-- One element of the array serialized by `formatNotesAsJSON`:
`{ ...note, blog_name }`. -/
structure AugmentedNote where
  note : Note
  blog_name : String
deriving DecidableEq, Repr

/-- The `notes.map(note => ({ ...note, blog_name: ... }))` stage of
`formatNotesAsJSON`. -/
def augmentNotes (notes : List Note) (blogs : List Blog) : List AugmentedNote :=
  notes.map (fun n => ⟨n, blogNameOf blogs n.blog_id⟩)

/-- A hexadecimal digit, lower case. -/
def hexDigit (n : Nat) : Char :=
  if n < 10 then Char.ofNat (48 + n) else Char.ofNat (87 + n)

/-- JSON string-character escaping as performed by `JSON.stringify`. -/
def jsonEscapeChar (c : Char) : List Char :=
  if c = '"' then ['\\', '"']
  else if c = '\\' then ['\\', '\\']
  else if c = '\n' then ['\\', 'n']
  else if c = '\r' then ['\\', 'r']
  else if c = '\t' then ['\\', 't']
  else if c.toNat = 8 then ['\\', 'b']
  else if c.toNat = 12 then ['\\', 'f']
  else if c.toNat < 32 then ['\\', 'u', '0', '0', hexDigit (c.toNat / 16), hexDigit (c.toNat % 16)]
  else [c]

/-- JSON escaping of a whole string. -/
def jsonEscape (s : String) : String := ⟨(s.data.map jsonEscapeChar).flatten⟩

/-- A JSON string literal. -/
def jsonStr (s : String) : String := "\"" ++ jsonEscape s ++ "\""

/-- A JSON string literal or `null`, for the nullable columns. -/
def jsonOptStr : Option String → String
  | none => "null"
  | some s => jsonStr s

/-- One object of the array produced by
`JSON.stringify(..., null, 2)`: two-space indentation, the spread note
fields in interface order followed by `blog_name`. -/
def augmentedNoteJson (a : AugmentedNote) : String :=
  "  \x7b\n    \"id\": " ++ jsonStr a.note.id
  ++ ",\n    \"blog_id\": " ++ jsonStr a.note.blog_id
  ++ ",\n    \"article_id\": " ++ jsonOptStr a.note.article_id
  ++ ",\n    \"article_title\": " ++ jsonOptStr a.note.article_title
  ++ ",\n    \"article_url\": " ++ jsonOptStr a.note.article_url
  ++ ",\n    \"excerpt\": " ++ jsonStr a.note.excerpt
  ++ ",\n    \"personal_note\": " ++ jsonStr a.note.personal_note
  ++ ",\n    \"created_at\": " ++ jsonStr a.note.created_at
  ++ ",\n    \"blog_name\": " ++ jsonStr a.blog_name
  ++ "\n  \x7d"

/-- `formatNotesAsJSON` from `ExportNotes.tsx`:
`JSON.stringify(notes.map(note => ({ ...note, blog_name })), null, 2)`. -/
def formatNotesAsJSON (notes : List Note) (blogs : List Blog) : String :=
  match augmentNotes notes blogs with
  | [] => "[]"
  | l => "[\n" ++ joinWith ",\n" (l.map augmentedNoteJson) ++ "\n]"

/-- The blog-name grouping `reduce` of `formatNotesAsMarkdown`:
append the note to its blog-name bucket, creating the bucket on first
encounter. -/
def insertByBlog (name : String) (n : Note) : List (String × List Note) → List (String × List Note)
  | [] => [(name, [n])]
  | g :: gs => if g.1 = name then (g.1, g.2 ++ [n]) :: gs else g :: insertByBlog name n gs

/-- Notes grouped by resolved blog name, in insertion order. -/
def notesByBlog (blogs : List Blog) (notes : List Note) : List (String × List Note) :=
  notes.foldl (fun acc n => insertByBlog (blogNameOf blogs n.blog_id) n acc) []

/-- The per-note markdown fragment of `formatNotesAsMarkdown`;
`fmtDate` abstracts `new Date(...).toLocaleString()`. -/
def noteMarkdown (fmtDate : String → String) (n : Note) : String :=
  (if truthy n.article_title then
      "### " ++ orElseStr n.article_title "" ++ "\n"
      ++ (if truthy n.article_url then
            "[View Article](" ++ orElseStr n.article_url "" ++ ")\n"
          else "")
    else "")
  ++ "\n#### Excerpt\n" ++ n.excerpt ++ "\n\n"
  ++ "#### Personal Note\n" ++ n.personal_note ++ "\n\n"
  ++ "_Added on " ++ fmtDate n.created_at ++ "_\n\n---\n\n"

/-- `formatNotesAsMarkdown` from `ExportNotes.tsx`. -/
def formatNotesAsMarkdown (fmtDate : String → String) (notes : List Note)
    (blogs : List Blog) : String :=
  "# My Notes\n\n"
  ++ joinWith "" ((notesByBlog blogs notes).map (fun g =>
      "## " ++ g.1 ++ "\n\n" ++ joinWith "" (g.2.map (noteMarkdown fmtDate))))

/-- The CSV header row of `formatNotesAsCSV`. -/
def csvHeaders : List String :=
  ["Blog", "Article Title", "Article URL", "Excerpt", "Personal Note", "Created At"]

/-- `formatNotesAsCSV` from `ExportNotes.tsx`: header row plus one row
per note, each cell quoted by `csvEscape`, cells joined by `,`, rows
joined by `\n`. -/
def formatNotesAsCSV (fmtDate : String → String) (notes : List Note)
    (blogs : List Blog) : String :=
  joinWith "\n"
    ((csvHeaders ::
        notes.map (fun n =>
          [blogNameOf blogs n.blog_id, orElseStr n.article_title "",
            orElseStr n.article_url "", n.excerpt, n.personal_note,
            fmtDate n.created_at])).map
      (fun row => joinWith "," (row.map csvEscape)))

/-- The export format union type of `ExportNotes.tsx`. -/
inductive ExportFormat
  | markdown
  | json
  | csv
deriving DecidableEq

/-- The body of `handleExport` after `fetchAllNotes` has succeeded:
reject an absent or empty note collection before choosing a formatter,
otherwise produce the formatted content. -/
def handleExport (fmtDate : String → String) (format : ExportFormat)
    (notesOpt : Option (List Note)) (blogs : List Blog) : Except String String :=
  match notesOpt with
  | none => .error "No notes found to export"
  | some notes =>
    if notes.length = 0 then .error "No notes found to export"
    else
      match format with
      | .markdown => .ok (formatNotesAsMarkdown fmtDate notes blogs)
      | .json => .ok (formatNotesAsJSON notes blogs)
      | .csv => .ok (formatNotesAsCSV fmtDate notes blogs)

/-- The note of the C5 counterexample. -/
def unknownBlogNote : Note :=
  ⟨"n9", "b9", none, none, none, "e9", "p9", "t9"⟩

end ExportNotes

namespace BlogNotes

theorem insertNote_cons_eq (n : Note) (g : String × NoteGroup)
    (gs : List (String × NoteGroup)) (h : g.1 = keyOf n) :
    insertNote n (g :: gs) =
      (g.1, ⟨g.2.article_title, g.2.article_url, g.2.notes ++ [n]⟩) :: gs := by
  simp [insertNote, h]

theorem insertNote_cons_ne (n : Note) (g : String × NoteGroup)
    (gs : List (String × NoteGroup)) (h : g.1 ≠ keyOf n) :
    insertNote n (g :: gs) = g :: insertNote n gs := by
  simp [insertNote, h]

theorem insertNote_keys_of_mem (n : Note) :
    ∀ acc : List (String × NoteGroup), keyOf n ∈ acc.map Prod.fst →
      (insertNote n acc).map Prod.fst = acc.map Prod.fst := by
  intro acc
  induction acc with
  | nil => intro h; simp at h
  | cons g gs ih =>
    intro h
    by_cases hg : g.1 = keyOf n
    · simp [insertNote, hg]
    · have : keyOf n ∈ gs.map Prod.fst := by
        rcases (List.mem_cons.1 h) with h1 | h1
        · exact absurd h1.symm hg
        · exact h1
      simp [insertNote, hg, ih this]

theorem insertNote_keys_of_not_mem (n : Note) :
    ∀ acc : List (String × NoteGroup), keyOf n ∉ acc.map Prod.fst →
      (insertNote n acc).map Prod.fst = acc.map Prod.fst ++ [keyOf n] := by
  intro acc
  induction acc with
  | nil => intro _; simp [insertNote]
  | cons g gs ih =>
    intro h
    have hg : g.1 ≠ keyOf n := by
      intro hgk; exact h (by simp [hgk])
    have hgs : keyOf n ∉ gs.map Prod.fst := fun hm => h (by simp [hm])
    simp [insertNote, hg, ih hgs]

theorem insertNote_join_perm (n : Note) :
    ∀ acc : List (String × NoteGroup),
      List.Perm (((insertNote n acc).map (fun g => g.2.notes)).flatten)
        (n :: (acc.map (fun g => g.2.notes)).flatten) := by
  intro acc
  induction acc with
  | nil => simp [insertNote]
  | cons g gs ih =>
    by_cases hg : g.1 = keyOf n
    · rw [insertNote_cons_eq n g gs hg]
      simp only [List.map_cons, List.flatten_cons, List.append_assoc, List.singleton_append]
      exact List.perm_middle
    · rw [insertNote_cons_ne n g gs hg]
      simp only [List.map_cons, List.flatten_cons]
      exact (List.Perm.append_left g.2.notes ih).trans List.perm_middle

theorem insertNote_wellKeyed (n : Note) :
    ∀ acc : List (String × NoteGroup),
      (∀ g ∈ acc, ∀ m ∈ g.2.notes, keyOf m = g.1) →
      (∀ g ∈ insertNote n acc, ∀ m ∈ g.2.notes, keyOf m = g.1) := by
  intro acc
  induction acc with
  | nil =>
    intro _ g hg m hm
    simp [insertNote] at hg
    subst hg
    simp at hm
    subst hm
    rfl
  | cons g0 gs ih =>
    intro hacc g hg m hm
    by_cases hk : g0.1 = keyOf n
    · rw [insertNote_cons_eq n g0 gs hk] at hg
      rcases List.mem_cons.1 hg with h1 | h1
      · subst h1
        simp only at hm
        rcases List.mem_append.1 hm with h2 | h2
        · exact hacc g0 (by simp) m h2
        · simp at h2
          subst h2
          exact hk.symm
      · exact hacc g (by simp [h1]) m hm
    · rw [insertNote_cons_ne n g0 gs hk] at hg
      rcases List.mem_cons.1 hg with h1 | h1
      · subst h1
        exact hacc g (by simp) m hm
      · exact ih (fun g' hg' => hacc g' (by simp [hg'])) g h1 m hm

theorem insertNote_nodupKeys (n : Note) (acc : List (String × NoteGroup))
    (h : (acc.map Prod.fst).Nodup) : ((insertNote n acc).map Prod.fst).Nodup := by
  by_cases hm : keyOf n ∈ acc.map Prod.fst
  · rw [insertNote_keys_of_mem n acc hm]; exact h
  · rw [insertNote_keys_of_not_mem n acc hm]
    exact List.Nodup.append h (List.nodup_singleton _) (by simpa using hm)

theorem groupAux_perm :
    ∀ (l : List Note) (acc : List (String × NoteGroup)),
      List.Perm (((l.foldl (fun a n => insertNote n a) acc).map (fun g => g.2.notes)).flatten)
        ((acc.map (fun g => g.2.notes)).flatten ++ l) := by
  intro l
  induction l with
  | nil => intro acc; simp
  | cons n t ih =>
    intro acc
    simp only [List.foldl_cons]
    refine (ih (insertNote n acc)).trans ?_
    refine (List.Perm.append_right t (insertNote_join_perm n acc)).trans ?_
    exact (@List.perm_middle _ n _ _).symm

theorem groupAux_nodupKeys :
    ∀ (l : List Note) (acc : List (String × NoteGroup)),
      (acc.map Prod.fst).Nodup →
      (((l.foldl (fun a n => insertNote n a) acc)).map Prod.fst).Nodup := by
  intro l
  induction l with
  | nil => intro acc h; simpa using h
  | cons n t ih =>
    intro acc h
    simp only [List.foldl_cons]
    exact ih _ (insertNote_nodupKeys n acc h)

theorem groupAux_wellKeyed :
    ∀ (l : List Note) (acc : List (String × NoteGroup)),
      (∀ g ∈ acc, ∀ m ∈ g.2.notes, keyOf m = g.1) →
      (∀ g ∈ l.foldl (fun a n => insertNote n a) acc, ∀ m ∈ g.2.notes, keyOf m = g.1) := by
  intro l
  induction l with
  | nil => intro acc h; simpa using h
  | cons n t ih =>
    intro acc h
    simp only [List.foldl_cons]
    exact ih _ (insertNote_wellKeyed n acc h)

/-- C2 (amended): `groupNotesByArticle` partitions any note collection
exactly: the multiset union of the groups' note lists is the input, every
note sits in the group of its own key — its article reference when that
reference is non-empty, the sentinel `"uncategorized"` when the
reference is absent or empty — the group keys are pairwise distinct, and
the groups are pairwise disjoint. -/
theorem groupNotesByArticle_partitions (notes : List Note) :
    List.Perm (((groupNotesByArticle notes).map (fun g => g.2.notes)).flatten) notes
    ∧ (∀ g ∈ groupNotesByArticle notes, ∀ m ∈ g.2.notes, keyOf m = g.1)
    ∧ ((groupNotesByArticle notes).map Prod.fst).Nodup
    ∧ (groupNotesByArticle notes).Pairwise
        (fun g1 g2 => ∀ m ∈ g1.2.notes, m ∉ g2.2.notes) := by
  have hperm : List.Perm (((groupNotesByArticle notes).map (fun g => g.2.notes)).flatten) notes := by
    simpa [groupNotesByArticle] using groupAux_perm notes []
  have hkeyed : ∀ g ∈ groupNotesByArticle notes, ∀ m ∈ g.2.notes, keyOf m = g.1 :=
    groupAux_wellKeyed notes [] (by simp)
  have hnodup : ((groupNotesByArticle notes).map Prod.fst).Nodup :=
    groupAux_nodupKeys notes [] (by simp)
  refine ⟨hperm, hkeyed, hnodup, ?_⟩
  have hpw : (groupNotesByArticle notes).Pairwise (fun g1 g2 => g1.1 ≠ g2.1) :=
    (List.pairwise_map.1 hnodup)
  refine hpw.imp_of_mem ?_
  intro g1 g2 h1 h2 hne m hm1 hm2
  exact hne ((hkeyed g1 h1 m hm1).symm.trans (hkeyed g2 h2 m hm2))

/-- C2 counterexample to the claim as stated: `emptyIdNote` has a
present (non-absent) article reference, `some ""`, yet its group is
keyed by the sentinel `"uncategorized"`, not by that reference. -/
theorem groupNotesByArticle_emptyId_counterexample :
    emptyIdNote.article_id = some ""
    ∧ (groupNotesByArticle [emptyIdNote]).map Prod.fst = ["uncategorized"]
    ∧ ("uncategorized" : String) ≠ "" := by
  refine ⟨rfl, rfl, by decide⟩

/-- Witness: the partition theorem evaluated on a concrete two-group
collection. -/
theorem groupNotesByArticle_partitions_witness :
    List.Perm (((groupNotesByArticle
        [⟨"n1", "b1", some "a1", some "Post", none, "e1", "p1", "t1"⟩,
         ⟨"n2", "b1", none, none, none, "e2", "p2", "t2"⟩]).map
        (fun g => g.2.notes)).flatten)
      [⟨"n1", "b1", some "a1", some "Post", none, "e1", "p1", "t1"⟩,
       ⟨"n2", "b1", none, none, none, "e2", "p2", "t2"⟩] := by
  exact (groupNotesByArticle_partitions _).1

end BlogNotes

theorem collapseQuotes_doubleQuotes : ∀ l : List Char, collapseQuotes (doubleQuotes l) = l := by
  intro l
  induction l with
  | nil => rfl
  | cons c cs ih =>
    by_cases hc : c = '"'
    · subst hc
      simp [doubleQuotes, collapseQuotes, ih]
    · simp only [doubleQuotes, if_neg hc]
      cases hd : doubleQuotes cs with
      | nil =>
        have : collapseQuotes [] = cs := by rw [← hd]; exact ih
        simp [collapseQuotes, ← this]
      | cons d ds =>
        have hne : ¬(c = '"' ∧ d = '"') := fun h => hc h.1
        simp only [collapseQuotes, if_neg hne]
        rw [← hd, ih]

/-- C4: every CSV field is emitted wrapped in double quotes with each
internal double quote doubled, and parsing the emitted field (stripping
the outer quotes, collapsing doubled quotes) recovers the original field
value exactly, for every string including ones containing `"`. -/
theorem csvEscape_roundTrip (s : String) :
    (csvEscape s).data = '"' :: (doubleQuotes s.data ++ ['"'])
    ∧ csvUnescape (csvEscape s) = s := by
  refine ⟨rfl, ?_⟩
  show (⟨collapseQuotes (((csvEscape s).data.drop 1).dropLast)⟩ : String) = s
  have h1 : ((csvEscape s).data.drop 1).dropLast = doubleQuotes s.data := by
    show ((('"' :: (doubleQuotes s.data ++ ['"'])).drop 1).dropLast) = doubleQuotes s.data
    simp
  rw [h1, collapseQuotes_doubleQuotes]

namespace BlogNotes

theorem lexLe_refl : ∀ l : List Char, lexLe l l = true := by
  intro l
  induction l with
  | nil => rfl
  | cons a as ih => simp [lexLe, lt_irrefl, ih]

theorem lexLe_total : ∀ l1 l2 : List Char, lexLe l1 l2 = true ∨ lexLe l2 l1 = true := by
  intro l1
  induction l1 with
  | nil => intro l2; left; rfl
  | cons a as ih =>
    intro l2
    cases l2 with
    | nil => right; rfl
    | cons b bs =>
      rcases lt_trichotomy a b with h | h | h
      · left; simp [lexLe, h]
      · subst h
        rcases ih bs with h2 | h2
        · left; simp [lexLe, lt_irrefl, h2]
        · right; simp [lexLe, lt_irrefl, h2]
      · right; simp [lexLe, h]

theorem lexLe_trans : ∀ l1 l2 l3 : List Char,
    lexLe l1 l2 = true → lexLe l2 l3 = true → lexLe l1 l3 = true := by
  intro l1
  induction l1 with
  | nil => intro l2 l3 _ _; rfl
  | cons a as ih =>
    intro l2 l3 h12 h23
    cases l2 with
    | nil => simp [lexLe] at h12
    | cons b bs =>
      cases l3 with
      | nil => simp [lexLe] at h23
      | cons c cs =>
        by_cases hab : a < b
        · by_cases hbc : b < c
          · simp [lexLe, lt_trans hab hbc]
          · by_cases hcb : c < b
            · exfalso; simp [lexLe, hbc, hcb] at h23
            · have hbc' : b = c := le_antisymm (not_lt.1 hcb) (not_lt.1 hbc)
              subst hbc'
              simp [lexLe, hab]
        · by_cases hba : b < a
          · exfalso; simp [lexLe, hab, hba] at h12
          · have hab' : a = b := le_antisymm (not_lt.1 hba) (not_lt.1 hab)
            subst hab'
            simp only [lexLe, lt_irrefl, if_false] at h12
            by_cases hac : a < c
            · simp [lexLe, hac]
            · by_cases hca : c < a
              · exfalso; simp [lexLe, hac, hca] at h23
              · have hac' : a = c := le_antisymm (not_lt.1 hca) (not_lt.1 hac)
                subst hac'
                simp only [lexLe, lt_irrefl, if_false] at h23 ⊢
                exact ih bs cs h12 h23

theorem mem_insertLe (le : Note → Note → Bool) (n x : Note) :
    ∀ l, x ∈ insertLe le n l ↔ x = n ∨ x ∈ l := by
  intro l
  induction l with
  | nil => simp [insertLe]
  | cons m t ih =>
    by_cases hle : le n m = true
    · simp [insertLe, hle]
    · simp [insertLe, hle, ih]
      tauto

theorem pairwise_insertLe (le : Note → Note → Bool)
    (htot : ∀ a b, le a b = true ∨ le b a = true)
    (htrans : ∀ a b c, le a b = true → le b c = true → le a c = true) :
    ∀ l, l.Pairwise (fun a b => le a b = true) →
      ∀ n, (insertLe le n l).Pairwise (fun a b => le a b = true) := by
  intro l
  induction l with
  | nil => intro _ n; simp [insertLe]
  | cons m t ih =>
    intro hp n
    rcases List.pairwise_cons.1 hp with ⟨hm, ht⟩
    by_cases hle : le n m = true
    · simp only [insertLe, if_pos hle]
      refine List.pairwise_cons.2 ⟨?_, hp⟩
      intro x hx
      rcases List.mem_cons.1 hx with h1 | h1
      · subst h1; exact hle
      · exact htrans n m x hle (hm x h1)
    · simp only [insertLe, if_neg hle]
      have hmn : le m n = true := (htot n m).resolve_left hle
      refine List.pairwise_cons.2 ⟨?_, ih ht n⟩
      intro x hx
      rcases (mem_insertLe le n x t).1 hx with h1 | h1
      · subst h1; exact hmn
      · exact hm x h1

theorem pairwise_stableSort (le : Note → Note → Bool)
    (htot : ∀ a b, le a b = true ∨ le b a = true)
    (htrans : ∀ a b c, le a b = true → le b c = true → le a c = true) :
    ∀ l, (stableSort le l).Pairwise (fun a b => le a b = true) := by
  intro l
  induction l with
  | nil => simp [stableSort]
  | cons n t ih =>
    exact pairwise_insertLe le htot htrans (stableSort le t) ih n

theorem filter_insertLe_eq (le : Note → Note → Bool) (key : Note → String)
    (hkey : ∀ a b, key a = key b → le a b = true)
    (n : Note) (k : String) (hn : key n = k) :
    ∀ l, (insertLe le n l).filter (fun m => decide (key m = k)) =
      n :: l.filter (fun m => decide (key m = k)) := by
  intro l
  induction l with
  | nil => simp [insertLe, hn]
  | cons m t ih =>
    by_cases hle : le n m = true
    · simp [insertLe, hle, hn]
    · have hkm : ¬ key m = k := by
        intro hk
        exact hle (hkey n m (by rw [hn, hk]))
      simp [insertLe, hle, hkm, ih]

theorem filter_insertLe_ne (le : Note → Note → Bool) (key : Note → String)
    (n : Note) (k : String) (hn : ¬ key n = k) :
    ∀ l, (insertLe le n l).filter (fun m => decide (key m = k)) =
      l.filter (fun m => decide (key m = k)) := by
  intro l
  induction l with
  | nil => simp [insertLe, hn]
  | cons m t ih =>
    by_cases hle : le n m = true
    · simp [insertLe, hle, hn]
    · by_cases hm : key m = k
      · simp [insertLe, hle, hm, ih]
      · simp [insertLe, hle, hm, ih]

theorem filter_stableSort (le : Note → Note → Bool) (key : Note → String)
    (hkey : ∀ a b, key a = key b → le a b = true) :
    ∀ (l : List Note) (k : String),
      (stableSort le l).filter (fun m => decide (key m = k)) =
        l.filter (fun m => decide (key m = k)) := by
  intro l
  induction l with
  | nil => intro k; rfl
  | cons n t ih =>
    intro k
    show (insertLe le n (stableSort le t)).filter _ = _
    by_cases hn : key n = k
    · rw [filter_insertLe_eq le key hkey n k hn (stableSort le t), ih k]
      simp [hn]
    · rw [filter_insertLe_ne le key n k hn (stableSort le t), ih k]
      simp [hn]

/-- C7: sorting with the `article` option yields a list ordered
lexicographically by the denormalized article title (absent or empty
titles compare as the empty string), the sort is stable — for every
title key, the notes with that key appear in their relative input
order — and the spec scenario holds: titles `["Zed", "", "Apple"]` come
out in the order `["", "Apple", "Zed"]`. -/
theorem filterAndSortNotes_article_sorted (getTime : String → Int)
    (fb : FilterOption) (q : String) (notes : List Note) :
    (filterAndSortNotes getTime fb q SortOption.article notes).Pairwise
        (fun a b => lexLe (titleKey a).data (titleKey b).data = true)
    ∧ (∀ k : String,
        (filterAndSortNotes getTime fb q SortOption.article notes).filter
            (fun m => decide (titleKey m = k)) =
          (applySearch q (applyFilter fb notes)).filter (fun m => decide (titleKey m = k)))
    ∧ filterAndSortNotes (fun _ => 0) FilterOption.all "" SortOption.article
        [noteZed, noteEmptyTitle, noteApple] = [noteEmptyTitle, noteApple, noteZed] := by
  have hkey : ∀ a b : Note, titleKey a = titleKey b → leByTitle a b = true := by
    intro a b h
    show lexLe (titleKey a).data (titleKey b).data = true
    rw [h]
    exact lexLe_refl _
  refine ⟨?_, ?_, ?_⟩
  · exact pairwise_stableSort leByTitle
      (fun a b => lexLe_total (titleKey a).data (titleKey b).data)
      (fun a b c => lexLe_trans (titleKey a).data (titleKey b).data (titleKey c).data)
      (applySearch q (applyFilter fb notes))
  · intro k
    exact filter_stableSort leByTitle titleKey hkey (applySearch q (applyFilter fb notes)) k
  · decide

theorem handleSubmit_cached (uid bid : String) (st : Store) (s : Session) (aid : String)
    (h : s.currentArticleId = some aid) :
    (handleSubmit uid bid st s false false).store.articles = st.articles
    ∧ (handleSubmit uid bid st s false false).session.currentArticleId = some aid
    ∧ (handleSubmit uid bid st s false false).store.notes =
        st.notes ++
          [⟨toString st.nextId, bid, some aid,
            if s.articleTitle = "" then none else some s.articleTitle,
            if s.articleUrl = "" then none else some s.articleUrl,
            s.excerpt, s.personalNote, toString st.nextId⟩]
    ∧ (handleSubmit uid bid st s false false).error = none := by
  have hcond : ¬(s.currentArticleId = none ∧ s.articleUrl ≠ "" ∧ s.articleTitle ≠ "") := by
    intro hc
    rw [h] at hc
    exact Option.some_ne_none aid hc.1
  simp [handleSubmit, hcond, insertNoteRow, h]

theorem submitN_cached (uid bid : String) (aid : String) :
    ∀ (k : Nat) (st : Store) (s : Session), s.currentArticleId = some aid →
      (submitN uid bid k (st, s)).1.articles = st.articles
      ∧ (submitN uid bid k (st, s)).2.currentArticleId = some aid
      ∧ ∃ added : List Note,
          (submitN uid bid k (st, s)).1.notes = st.notes ++ added
          ∧ ∀ m ∈ added, m.article_id = some aid := by
  intro k
  induction k with
  | zero =>
    intro st s h
    exact ⟨rfl, h, [], by simp [submitN], by simp⟩
  | succ k ih =>
    intro st s h
    rcases handleSubmit_cached uid bid st s aid h with ⟨ha, hc, hn, _⟩
    have hstep := ih (handleSubmit uid bid st s false false).store
      (handleSubmit uid bid st s false false).session hc
    rcases hstep with ⟨ha2, hc2, added, hadd, hmem⟩
    refine ⟨?_, ?_, ?_⟩
    · show (submitN uid bid k _).1.articles = st.articles
      rw [ha2, ha]
    · exact hc2
    · refine ⟨(⟨toString st.nextId, bid, some aid,
        if s.articleTitle = "" then none else some s.articleTitle,
        if s.articleUrl = "" then none else some s.articleUrl,
        s.excerpt, s.personalNote, toString st.nextId⟩ : Note) :: added, ?_, ?_⟩
      · show (submitN uid bid k _).1.notes = _
        rw [hadd, hn]
        simp
      · intro m hm
        rcases List.mem_cons.1 hm with h1 | h1
        · subst h1; rfl
        · exact hmem m h1

/-- C1: within one note-entry session with non-empty article title and
URL and no cached reference, the first submission creates exactly one
Article record and caches its reference; any number of further
submissions in the same session (unchanged title/URL) create no further
Article, return the same cached reference, and every note they add
references that same Article. -/
theorem handleSubmit_resolver_idempotent (uid bid : String) (st : Store) (s : Session)
    (h1 : s.currentArticleId = none) (h2 : s.articleTitle ≠ "") (h3 : s.articleUrl ≠ "") :
    ∃ aid : String,
      (handleSubmit uid bid st s false false).store.articles =
          st.articles ++ [⟨aid, bid, uid, s.articleTitle, s.articleUrl⟩]
      ∧ (handleSubmit uid bid st s false false).session.currentArticleId = some aid
      ∧ (handleSubmit uid bid st s false false).error = none
      ∧ ∀ (k : Nat) (st2 : Store) (s2 : Session), s2.currentArticleId = some aid →
          (submitN uid bid k (st2, s2)).1.articles = st2.articles
          ∧ (submitN uid bid k (st2, s2)).2.currentArticleId = some aid
          ∧ ∃ added : List Note,
              (submitN uid bid k (st2, s2)).1.notes = st2.notes ++ added
              ∧ ∀ m ∈ added, m.article_id = some aid := by
  refine ⟨toString st.nextId, ?_, ?_, ?_, ?_⟩
  · simp [handleSubmit, h1, h2, h3, insertNoteRow]
  · simp [handleSubmit, h1, h2, h3, insertNoteRow]
  · simp [handleSubmit, h1, h2, h3, insertNoteRow]
  · intro k st2 s2 hcache
    exact submitN_cached uid bid (toString st.nextId) k st2 s2 hcache

/-- Witness for C1 at a concrete session: empty store, title `"T"`,
URL `"u"`. -/
theorem handleSubmit_resolver_idempotent_witness :
    ∃ aid : String,
      (handleSubmit "user" "blog" ⟨[], [], 0⟩ ⟨"e", "p", "T", "u", none⟩ false false).store.articles =
          ([] : List ArticleRow) ++ [⟨aid, "blog", "user", "T", "u"⟩]
      ∧ (handleSubmit "user" "blog" ⟨[], [], 0⟩ ⟨"e", "p", "T", "u", none⟩ false false).session.currentArticleId = some aid
      ∧ (handleSubmit "user" "blog" ⟨[], [], 0⟩ ⟨"e", "p", "T", "u", none⟩ false false).error = none
      ∧ ∀ (k : Nat) (st2 : Store) (s2 : Session), s2.currentArticleId = some aid →
          (submitN "user" "blog" k (st2, s2)).1.articles = st2.articles
          ∧ (submitN "user" "blog" k (st2, s2)).2.currentArticleId = some aid
          ∧ ∃ added : List Note,
              (submitN "user" "blog" k (st2, s2)).1.notes = st2.notes ++ added
              ∧ ∀ m ∈ added, m.article_id = some aid :=
  handleSubmit_resolver_idempotent "user" "blog" ⟨[], [], 0⟩ ⟨"e", "p", "T", "u", none⟩
    rfl (by decide) (by decide)

/-- C6: a successful submission with non-empty article title and URL
appends exactly one note, and that note carries the denormalized
snapshot of the form's title and URL; moreover no submission (in any
state, with any store outcome) ever rewrites an existing note — the
snapshot is set at creation time and never re-synced. -/
theorem handleSubmit_snapshot (uid bid : String) (st : Store) (s : Session)
    (h2 : s.articleTitle ≠ "") (h3 : s.articleUrl ≠ "") :
    (∃ nn : Note,
      (handleSubmit uid bid st s false false).store.notes = st.notes ++ [nn]
      ∧ nn.article_title = some s.articleTitle
      ∧ nn.article_url = some s.articleUrl)
    ∧ ∀ (st2 : Store) (s2 : Session) (aF nF : Bool),
        ∃ added : List Note,
          (handleSubmit uid bid st2 s2 aF nF).store.notes = st2.notes ++ added := by
  constructor
  · by_cases h1 : s.currentArticleId = none
    · refine ⟨⟨toString (st.nextId + 1), bid, some (toString st.nextId),
        some s.articleTitle, some s.articleUrl, s.excerpt, s.personalNote,
        toString (st.nextId + 1)⟩, ?_, rfl, rfl⟩
      simp [handleSubmit, h1, h2, h3, insertNoteRow]
    · refine ⟨⟨toString st.nextId, bid, s.currentArticleId,
        some s.articleTitle, some s.articleUrl, s.excerpt, s.personalNote,
        toString st.nextId⟩, ?_, rfl, rfl⟩
      simp [handleSubmit, insertNoteRow, h1, h2, h3]
  · intro st2 s2 aF nF
    by_cases hcond : s2.currentArticleId = none ∧ s2.articleUrl ≠ "" ∧ s2.articleTitle ≠ ""
    · cases aF with
      | true => exact ⟨[], by simp [handleSubmit, hcond]⟩
      | false =>
        cases nF with
        | true => exact ⟨[], by simp [handleSubmit, hcond, insertNoteRow]⟩
        | false =>
          refine ⟨[⟨toString (st2.nextId + 1), bid, some (toString st2.nextId),
            if s2.articleTitle = "" then none else some s2.articleTitle,
            if s2.articleUrl = "" then none else some s2.articleUrl,
            s2.excerpt, s2.personalNote, toString (st2.nextId + 1)⟩], ?_⟩
          simp [handleSubmit, hcond, insertNoteRow]
    · cases nF with
      | true => exact ⟨[], by simp [handleSubmit, hcond, insertNoteRow]⟩
      | false =>
        refine ⟨[⟨toString st2.nextId, bid, s2.currentArticleId,
          if s2.articleTitle = "" then none else some s2.articleTitle,
          if s2.articleUrl = "" then none else some s2.articleUrl,
          s2.excerpt, s2.personalNote, toString st2.nextId⟩], ?_⟩
        simp [handleSubmit, hcond, insertNoteRow]

/-- Witness for C6 at a concrete session. -/
theorem handleSubmit_snapshot_witness :
    (∃ nn : Note,
      (handleSubmit "user" "blog" ⟨[], [], 0⟩ ⟨"e", "p", "T", "u", none⟩ false false).store.notes =
          ([] : List Note) ++ [nn]
      ∧ nn.article_title = some "T"
      ∧ nn.article_url = some "u")
    ∧ ∀ (st2 : Store) (s2 : Session) (aF nF : Bool),
        ∃ added : List Note,
          (handleSubmit "user" "blog" st2 s2 aF nF).store.notes = st2.notes ++ added :=
  handleSubmit_snapshot "user" "blog" ⟨[], [], 0⟩ ⟨"e", "p", "T", "u", none⟩
    (by decide) (by decide)

/-- C9: when the store rejects the Article insert during a submission
that needs to create an Article, the whole operation aborts with the
surfaced error, the store is left exactly as it was (no Article and, in
particular, no Note is written — the dependent note insert is never
attempted), and the session keeps no stale cached reference. -/
theorem handleSubmit_articleFailure_aborts (uid bid : String) (st : Store) (s : Session)
    (nF : Bool)
    (h1 : s.currentArticleId = none) (h2 : s.articleTitle ≠ "") (h3 : s.articleUrl ≠ "") :
    handleSubmit uid bid st s true nF = ⟨st, s, some "Failed to create article"⟩ := by
  simp [handleSubmit, h1, h2, h3]

/-- Witness for C9 at a concrete session. -/
theorem handleSubmit_articleFailure_aborts_witness :
    handleSubmit "user" "blog" ⟨[], [], 0⟩ ⟨"e", "p", "T", "u", none⟩ true false =
      ⟨⟨[], [], 0⟩, ⟨"e", "p", "T", "u", none⟩, some "Failed to create article"⟩ :=
  handleSubmit_articleFailure_aborts "user" "blog" ⟨[], [], 0⟩ ⟨"e", "p", "T", "u", none⟩
    false rfl (by decide) (by decide)

end BlogNotes

namespace ArticleRecommendations

/-- C3, evaluated at the failing input: with an empty expertise map the
source's aggregate expertise score is `0 / 0 = NaN` (modelled `none`),
so the `aggregate ≤ 2` comparison is false and the `"beginner"` rule
adds nothing — the article's score stays `0`, where the claim (the
spec's documented fix) requires the aggregate to be treated as `0` and
the score to gain `+1`. -/
theorem getExpertiseScore_empty_divergence :
    getExpertiseScore emptyProfile.expertise_areas = none
    ∧ hasSub "beginner".data (lowerChars beginnerArticle.title.data) = true
    ∧ nanLe (getExpertiseScore emptyProfile.expertise_areas) 2 = false
    ∧ scoreArticle emptyProfile beginnerArticle = 0 := by
  refine ⟨rfl, by decide, rfl, by decide⟩

end ArticleRecommendations

namespace ExportNotes

/-- C5 (amended): the JSON export serializes every note intact (every
`Note` field appears, in input order) and augments each object with the
resolved `blog_name`: the name found in the blog map, with the default
`"Unknown Blog"` used when the note's blog id is absent from the map or
maps to an empty name. -/
theorem formatNotesAsJSON_fields (notes : List Note) (blogs : List Blog) :
    (augmentNotes notes blogs).map AugmentedNote.note = notes
    ∧ (∀ a ∈ augmentNotes notes blogs,
        (blogMapGet blogs a.note.blog_id = none → a.blog_name = "Unknown Blog")
        ∧ (∀ nm : String, blogMapGet blogs a.note.blog_id = some nm →
            nm ≠ "" → a.blog_name = nm)
        ∧ (blogMapGet blogs a.note.blog_id = some "" → a.blog_name = "Unknown Blog")) := by
  constructor
  · simp only [augmentNotes, List.map_map]
    exact List.map_id notes
  · intro a ha
    rcases List.mem_map.1 ha with ⟨n, hn, hdef⟩
    subst hdef
    refine ⟨?_, ?_, ?_⟩
    · intro h
      simp only [blogNameOf, orElseStr, h]
    · intro nm h hne
      simp only [blogNameOf, orElseStr, h]
      exact if_neg hne
    · intro h
      simp [blogNameOf, orElseStr, h]

/-- C5 counterexample to the claim as stated: blog `"b9"` is present in
the blog map (with an empty display name), yet the emitted `blog_name`
is the default `"Unknown Blog"`, not the looked-up name `""`. -/
theorem formatNotesAsJSON_emptyName_counterexample :
    blogMapGet [⟨"b9", ""⟩] "b9" = some ""
    ∧ (augmentNotes [unknownBlogNote] [⟨"b9", ""⟩]).map AugmentedNote.blog_name =
        ["Unknown Blog"]
    ∧ ("Unknown Blog" : String) ≠ "" := by
  refine ⟨rfl, rfl, by decide⟩

/-- Witness for C5 at a concrete input. -/
theorem formatNotesAsJSON_fields_witness :
    (augmentNotes [unknownBlogNote] [⟨"b1", "My Blog"⟩]).map AugmentedNote.note =
        [unknownBlogNote]
    ∧ (∀ a ∈ augmentNotes [unknownBlogNote] [⟨"b1", "My Blog"⟩],
        (blogMapGet [⟨"b1", "My Blog"⟩] a.note.blog_id = none → a.blog_name = "Unknown Blog")
        ∧ (∀ nm : String, blogMapGet [⟨"b1", "My Blog"⟩] a.note.blog_id = some nm →
            nm ≠ "" → a.blog_name = nm)
        ∧ (blogMapGet [⟨"b1", "My Blog"⟩] a.note.blog_id = some "" →
            a.blog_name = "Unknown Blog")) :=
  formatNotesAsJSON_fields [unknownBlogNote] [⟨"b1", "My Blog"⟩]

theorem string_append_empty (s : String) : s ++ "" = s := by
  cases s with
  | mk l =>
    show String.mk (l ++ []) = String.mk l
    rw [List.append_nil]

theorem string_append_assoc (a b c : String) : a ++ b ++ c = a ++ (b ++ c) := by
  cases a with
  | mk la =>
    cases b with
    | mk lb =>
      cases c with
      | mk lc =>
        show String.mk (la ++ lb ++ lc) = String.mk (la ++ (lb ++ lc))
        rw [List.append_assoc]

theorem joinWith_cons_split (sep x : String) (l : List String) :
    ∃ r : String, joinWith sep (x :: l) = x ++ r := by
  cases l with
  | nil => exact ⟨"", (string_append_empty x).symm⟩
  | cons y t =>
    refine ⟨sep ++ joinWith sep (y :: t), ?_⟩
    show x ++ sep ++ joinWith sep (y :: t) = x ++ (sep ++ joinWith sep (y :: t))
    exact string_append_assoc x sep (joinWith sep (y :: t))

theorem csvHeaders_joined :
    joinWith "," (csvHeaders.map csvEscape) =
      "\"Blog\",\"Article Title\",\"Article URL\",\"Excerpt\",\"Personal Note\",\"Created At\"" := by
  decide

/-- C8: all three formatters are total Lean functions (hence never
throw on well-formed input); on the empty collection each returns its
header-only or empty-body result, and on every collection the Markdown
and CSV outputs begin with their fixed headers. -/
theorem exportFormatters_total (fmtDate : String → String) (blogs : List Blog) :
    formatNotesAsMarkdown fmtDate [] blogs = "# My Notes\n\n"
    ∧ formatNotesAsJSON [] blogs = "[]"
    ∧ formatNotesAsCSV fmtDate [] blogs =
        "\"Blog\",\"Article Title\",\"Article URL\",\"Excerpt\",\"Personal Note\",\"Created At\""
    ∧ (∀ notes : List Note, ∃ rest : String,
        formatNotesAsMarkdown fmtDate notes blogs = "# My Notes\n\n" ++ rest)
    ∧ (∀ notes : List Note, ∃ rest : String,
        formatNotesAsCSV fmtDate notes blogs =
          "\"Blog\",\"Article Title\",\"Article URL\",\"Excerpt\",\"Personal Note\",\"Created At\"" ++ rest) := by
  have hcsv : ∀ notes : List Note, ∃ rest : String,
      formatNotesAsCSV fmtDate notes blogs =
        "\"Blog\",\"Article Title\",\"Article URL\",\"Excerpt\",\"Personal Note\",\"Created At\"" ++ rest := by
    intro notes
    obtain ⟨r, hr⟩ := joinWith_cons_split "\n" (joinWith "," (csvHeaders.map csvEscape))
      ((notes.map (fun n =>
        [blogNameOf blogs n.blog_id, orElseStr n.article_title "",
          orElseStr n.article_url "", n.excerpt, n.personal_note,
          fmtDate n.created_at])).map (fun row => joinWith "," (row.map csvEscape)))
    refine ⟨r, ?_⟩
    show joinWith "\n"
        ((csvHeaders :: notes.map (fun n =>
          [blogNameOf blogs n.blog_id, orElseStr n.article_title "",
            orElseStr n.article_url "", n.excerpt, n.personal_note,
            fmtDate n.created_at])).map (fun row => joinWith "," (row.map csvEscape))) = _
    rw [List.map_cons, hr, csvHeaders_joined]
  refine ⟨rfl, rfl, ?_, ?_, hcsv⟩
  · show joinWith "\n"
        ((csvHeaders :: ([] : List Note).map (fun n =>
          [blogNameOf blogs n.blog_id, orElseStr n.article_title "",
            orElseStr n.article_url "", n.excerpt, n.personal_note,
            fmtDate n.created_at])).map (fun row => joinWith "," (row.map csvEscape))) = _
    simp only [List.map_nil, List.map_cons, joinWith]
    exact csvHeaders_joined
  · intro notes
    exact ⟨_, rfl⟩

/-- C10: the all-notes export raises `"No notes found to export"`
whenever the fetched collection is null or empty, before any formatter
runs — no content is produced for an empty collection even though the
formatters themselves accept empty input. -/
theorem handleExport_empty_rejects (fmtDate : String → String) (format : ExportFormat)
    (blogs : List Blog) :
    handleExport fmtDate format none blogs = .error "No notes found to export"
    ∧ handleExport fmtDate format (some []) blogs = .error "No notes found to export" := by
  exact ⟨rfl, rfl⟩

end ExportNotes

/-- Witness: the CSV round trip evaluated on a field containing a
double quote. -/
theorem csvEscape_roundTrip_witness :
    (csvEscape "A\"B").data = '"' :: (doubleQuotes "A\"B".data ++ ['"'])
    ∧ csvUnescape (csvEscape "A\"B") = "A\"B" :=
  csvEscape_roundTrip "A\"B"

namespace BlogNotes

/-- Witness: the article-sort theorem evaluated on the spec scenario
collection. -/
theorem filterAndSortNotes_article_sorted_witness :
    (filterAndSortNotes (fun _ => 0) FilterOption.all "" SortOption.article
        [noteZed, noteEmptyTitle, noteApple]).Pairwise
        (fun a b => lexLe (titleKey a).data (titleKey b).data = true)
    ∧ (∀ k : String,
        (filterAndSortNotes (fun _ => 0) FilterOption.all "" SortOption.article
            [noteZed, noteEmptyTitle, noteApple]).filter
            (fun m => decide (titleKey m = k)) =
          (applySearch "" (applyFilter FilterOption.all
            [noteZed, noteEmptyTitle, noteApple])).filter (fun m => decide (titleKey m = k)))
    ∧ filterAndSortNotes (fun _ => 0) FilterOption.all "" SortOption.article
        [noteZed, noteEmptyTitle, noteApple] = [noteEmptyTitle, noteApple, noteZed] :=
  filterAndSortNotes_article_sorted (fun _ => 0) FilterOption.all ""
    [noteZed, noteEmptyTitle, noteApple]

end BlogNotes

namespace ExportNotes

/-- Witness: the formatter-totality theorem evaluated at the identity
date renderer and an empty blog list. -/
theorem exportFormatters_total_witness :
    formatNotesAsMarkdown (fun s => s) [] [] = "# My Notes\n\n"
    ∧ formatNotesAsJSON [] [] = "[]"
    ∧ formatNotesAsCSV (fun s => s) [] [] =
        "\"Blog\",\"Article Title\",\"Article URL\",\"Excerpt\",\"Personal Note\",\"Created At\""
    ∧ (∀ notes : List Note, ∃ rest : String,
        formatNotesAsMarkdown (fun s => s) notes [] = "# My Notes\n\n" ++ rest)
    ∧ (∀ notes : List Note, ∃ rest : String,
        formatNotesAsCSV (fun s => s) notes [] =
          "\"Blog\",\"Article Title\",\"Article URL\",\"Excerpt\",\"Personal Note\",\"Created At\"" ++ rest) :=
  exportFormatters_total (fun s => s) []

/-- Witness: the empty-export rejection theorem evaluated at the CSV
format. -/
theorem handleExport_empty_rejects_witness :
    handleExport (fun s => s) ExportFormat.csv none [] = .error "No notes found to export"
    ∧ handleExport (fun s => s) ExportFormat.csv (some []) [] =
        .error "No notes found to export" :=
  handleExport_empty_rejects (fun s => s) ExportFormat.csv []

end ExportNotes
